import Mathlib

/-!
Verification of the CMO multi-agent content pipeline.

The definitions below are a shallow embedding of the Python sources:
`src/utils/api_client.py` (ModelRouter, ClaudeClient/OpenRouterClient retry
logic), `src/utils/cost_monitor.py` (CostMonitor pre-flight checks and usage
recording) and `src/agents/publishing_agent.py` together with
`src/agents/base_agent.py` (scheduling, retry queue, agent memory).

Conventions used throughout:
- token counts are `Nat`; money amounts are `ℚ` (the Python floats carry
  exact decimal constants here, and no claim depends on float rounding);
- timestamps are absolute minutes since an epoch chosen so that day 0 is a
  Monday, matching Python's `date.weekday()` where Saturday = 5, Sunday = 6;
- Python dicts keyed by strings are association lists `List (String × _)`,
  with insert-then-mutate modelled by `upsert`;
- the external generation / publishing capabilities are oracles passed as
  arguments (a list of successive backend outcomes, or a `Bool`-valued
  publish function), so that the control flow around them stays executable.
-/

namespace CMO

/-- `ModelRouter.task_routing` from `src/utils/api_client.py`: the static
task-type → backend table. -/
def task_routing : List (String × String) :=
  [("insight_extraction", "claude"),
   ("insight_prioritization", "claude"),
   ("research_analysis", "claude"),
   ("brand_voice_validation", "claude"),
   ("content_generation", "openrouter"),
   ("framework_thread", "openrouter"),
   ("contrarian_content", "openrouter"),
   ("case_study_content", "openrouter"),
   ("tactical_content", "openrouter"),
   ("search_query_generation", "openrouter")]

/-- The two backend clients a `ModelRouter.generate_content` call can
delegate to. -/
inductive RoutedClient where
  | claude
  | openrouter
deriving DecidableEq

/-- The client-selection logic of `ModelRouter.generate_content`:
`use_model = self.task_routing.get(task_type, "claude")`, then the Claude
client when `use_model == "claude"` and the OpenRouter client otherwise. -/
def generate_content_route (task_type : String) : RoutedClient :=
  let use_model := ((task_routing.lookup task_type).getD "claude")
  if use_model = "claude" then RoutedClient.claude else RoutedClient.openrouter

/-- One outcome of a single backend invocation inside
`ClaudeClient.generate_content` / `OpenRouterClient.generate_content`:
a successful response, a rate-limit exception, an API error, or any other
exception. -/
inductive ApiOutcome where
  | success (text : String)
  | rateLimitError (msg : String)
  | apiError (msg : String)
  | otherError (msg : String)
deriving DecidableEq

/-- The observable result of a `generate_content` call. `pending` marks that
the call is still running (the supplied outcome list was exhausted while the
code was still retrying). -/
inductive GenOutcome where
  | text (s : String)
  | contentGenerationError (msg : String)
  | pending
deriving DecidableEq

/-- `ClaudeClient.generate_content` (and identically
`OpenRouterClient.generate_content`), abstracted over the successive backend
outcomes: on success return the text; on `RateLimitError` sleep and then
re-invoke `generate_content` recursively (consuming the next outcome); on
`APIError` or any other exception raise `ContentGenerationError`.  The pair
returned is the final result together with the number of backend invocations
made.  Pre-flight budget checks, rate-limiter waits and logging do not affect
the invocation count and are omitted. -/
def generate_content_outcomes : List ApiOutcome → GenOutcome × Nat
  | [] => (GenOutcome.pending, 0)
  | ApiOutcome.success s :: _ => (GenOutcome.text s, 1)
  | ApiOutcome.rateLimitError _ :: rest =>
      let r := generate_content_outcomes rest
      (r.1, r.2 + 1)
  | ApiOutcome.apiError m :: _ =>
      (GenOutcome.contentGenerationError ("Claude API error: " ++ m), 1)
  | ApiOutcome.otherError m :: _ =>
      (GenOutcome.contentGenerationError ("Unexpected error: " ++ m), 1)

/-- `CostMonitor` pricing constant: $3 per 1M input tokens. -/
def input_token_cost : ℚ := 3 / 1000000

/-- `CostMonitor` pricing constant: $15 per 1M output tokens. -/
def output_token_cost : ℚ := 15 / 1000000

/-- The configurable limits read in `CostMonitor.__init__`. -/
structure CostLimits where
  daily_token_limit : Nat
  episode_token_limit : Nat
  monthly_budget_usd : ℚ
deriving DecidableEq

/-- The fields of the dict returned by
`CostMonitor.check_pre_request_limits`. -/
structure CheckResult where
  allowed : Bool
  reasons : List String
  estimated_cost_usd : ℚ
deriving DecidableEq

/-- The daily-limit reason string built at
`src/utils/cost_monitor.py:116`. -/
def dailyReasonStr (total limit : Nat) : String :=
  "Daily token limit would be exceeded: " ++ (toString total ++ (" > " ++ toString limit))

/-- The episode-limit reason string built at
`src/utils/cost_monitor.py:120`. -/
def episodeReasonStr (total limit : Nat) : String :=
  "Episode token limit would be exceeded: " ++ (toString total ++ (" > " ++ toString limit))

/-- The monthly-budget reason string built at
`src/utils/cost_monitor.py:124` (monetary amounts rendered with `toString`
on `ℚ` in place of Python's `:.2f` float formatting). -/
def monthlyReasonStr (total budget : ℚ) : String :=
  "Monthly budget would be exceeded: $" ++ (toString total ++ (" > $" ++ toString budget))

/-- `(daily_tokens + estimated_tokens) > self.daily_token_limit` from
`check_pre_request_limits`. -/
def daily_would_exceed (lim : CostLimits) (daily_tokens estimated_tokens : Nat) : Bool :=
  lim.daily_token_limit < daily_tokens + estimated_tokens

/-- `episode_id and (episode_tokens + estimated_tokens) > self.episode_token_limit`
from `check_pre_request_limits` (falsy when no episode id is given). -/
def episode_would_exceed (lim : CostLimits) (episode_tokens estimated_tokens : Nat)
    (episode_id : Option String) : Bool :=
  episode_id.isSome && decide (lim.episode_token_limit < episode_tokens + estimated_tokens)

/-- `estimated_cost = estimated_tokens * self.input_token_cost` from
`check_pre_request_limits`. -/
def estimated_cost (estimated_tokens : Nat) : ℚ :=
  (estimated_tokens : ℚ) * input_token_cost

/-- `(monthly_cost + estimated_cost) > self.monthly_budget_usd` from
`check_pre_request_limits`. -/
def monthly_would_exceed (lim : CostLimits) (monthly_cost : ℚ)
    (estimated_tokens : Nat) : Bool :=
  lim.monthly_budget_usd < monthly_cost + estimated_cost estimated_tokens

/-- `CostMonitor.check_pre_request_limits`.  The current usage numbers
(`daily_tokens`, `episode_tokens` for the given episode, `monthly_cost`) are
passed in directly in place of the lookups into `self.usage_data`; the
`episode_tokens` argument is only consulted when `episode_id` is present,
exactly as in the source.  The result starts as allowed with no reasons and
each of the three overflow conditions flips `allowed` and appends its reason,
in source order: daily, then episode, then monthly. -/
def check_pre_request_limits (lim : CostLimits) (daily_tokens episode_tokens : Nat)
    (monthly_cost : ℚ) (episode_id : Option String) (estimated_tokens : Nat) :
    CheckResult :=
  let r0 : CheckResult :=
    { allowed := true, reasons := [], estimated_cost_usd := estimated_cost estimated_tokens }
  let r1 := if daily_would_exceed lim daily_tokens estimated_tokens then
      { r0 with allowed := false,
                reasons := r0.reasons ++ [dailyReasonStr (daily_tokens + estimated_tokens) lim.daily_token_limit] }
    else r0
  let r2 := if episode_would_exceed lim episode_tokens estimated_tokens episode_id then
      { r1 with allowed := false,
                reasons := r1.reasons ++ [episodeReasonStr (episode_tokens + estimated_tokens) lim.episode_token_limit] }
    else r1
  if monthly_would_exceed lim monthly_cost estimated_tokens then
      { r2 with allowed := false,
                reasons := r2.reasons ++ [monthlyReasonStr (monthly_cost + estimated_cost estimated_tokens) lim.monthly_budget_usd] }
    else r2

/-- `needle` occurs contiguously inside `hay`. -/
def containsSub (needle hay : List Char) : Prop :=
  ∃ s t, hay = s ++ needle ++ t

/-- A string mentions "daily": the lowercased character sequence of the
string contains `daily` contiguously. -/
def mentionsDaily (s : String) : Prop :=
  containsSub "daily".toList (s.toList.map Char.toLower)

/-- Agent memory as maintained by `BaseAgent`
(`src/agents/base_agent.py`): the lists touched by `learn_from_success`,
`learn_from_failure` and `log_decision`.  The dict payloads of patterns and
decisions are opaque to those methods, so they are type parameters. -/
structure AgentMemory (Pattern Decision : Type) where
  successful_patterns : List Pattern
  failed_patterns : List Pattern
  decisions : List Decision
deriving DecidableEq

/-- `BaseAgent._get_default_memory`, restricted to the fields the learning
methods touch. -/
def default_memory {Pattern Decision : Type} : AgentMemory Pattern Decision :=
  { successful_patterns := [], failed_patterns := [], decisions := [] }

/-- `BaseAgent.learn_from_success`: append the pattern to
`successful_patterns` (no truncation). -/
def learn_from_success {Pattern Decision : Type} (pattern : Pattern)
    (m : AgentMemory Pattern Decision) : AgentMemory Pattern Decision :=
  { m with successful_patterns := m.successful_patterns ++ [pattern] }

/-- `BaseAgent.learn_from_failure`: append the pattern to `failed_patterns`
(no truncation). -/
def learn_from_failure {Pattern Decision : Type} (pattern : Pattern)
    (m : AgentMemory Pattern Decision) : AgentMemory Pattern Decision :=
  { m with failed_patterns := m.failed_patterns ++ [pattern] }

/-- `BaseAgent.log_decision`: append the decision record, then keep only the
last 100 entries (`self.memory["decisions"][-100:]`) when the list exceeds
100. -/
def log_decision {Pattern Decision : Type} (d : Decision)
    (m : AgentMemory Pattern Decision) : AgentMemory Pattern Decision :=
  let ds := m.decisions ++ [d]
  { m with decisions := if 100 < ds.length then ds.drop (ds.length - 100) else ds }

/-- Per-agent entry of a day record in `CostMonitor.record_api_usage`
(`{"tokens": 0, "cost_usd": 0, "requests": 0}`). -/
structure DailyAgentUsage where
  tokens : Nat
  cost_usd : ℚ
  requests : Nat
deriving DecidableEq

/-- A `daily_usage[today]` record. -/
structure DailyRecord where
  total_tokens : Nat
  total_cost_usd : ℚ
  requests : Nat
  agents : List (String × DailyAgentUsage)
deriving DecidableEq

/-- Per-agent entry of an episode record (`{"tokens": 0, "cost_usd": 0}`;
note: no request count, matching the source). -/
structure EpisodeAgentUsage where
  tokens : Nat
  cost_usd : ℚ
deriving DecidableEq

/-- An `episode_usage[episode_id]` record (no request count, matching the
source). -/
structure EpisodeRecord where
  total_tokens : Nat
  total_cost_usd : ℚ
  agents : List (String × EpisodeAgentUsage)
  timestamp : String
deriving DecidableEq

/-- A `monthly_totals[current_month]` record.  The source stores only the
three aggregates — monthly records carry no per-agent map. -/
structure MonthlyRecord where
  total_tokens : Nat
  total_cost_usd : ℚ
  requests : Nat
deriving DecidableEq

/-- `CostMonitor.usage_data`. -/
structure UsageData where
  daily_usage : List (String × DailyRecord)
  episode_usage : List (String × EpisodeRecord)
  monthly_totals : List (String × MonthlyRecord)
  last_updated : String
deriving DecidableEq

/-- The empty usage document created by `CostMonitor.load_usage_data` when no
file exists (`last_updated` is the load-time timestamp). -/
def initial_usage_data (ts : String) : UsageData :=
  { daily_usage := [], episode_usage := [], monthly_totals := [], last_updated := ts }

/-- Python's `if key not in dict: dict[key] = init` followed by an in-place
update of `dict[key]`, on an association list: the first entry with the key
is updated by `f`, and a missing key is appended as `f init`. -/
def upsert {V : Type} (k : String) (init : V) (f : V → V) :
    List (String × V) → List (String × V)
  | [] => [(k, f init)]
  | p :: rest => if p.1 = k then (p.1, f p.2) :: rest else p :: upsert k init f rest

/-- The arguments of one `CostMonitor.record_api_usage` call, with the
`datetime.now()`-derived values (`today`, `current_month`, `timestamp`) made
explicit. -/
structure RecordCall where
  today : String
  month : String
  timestamp : String
  agent_name : String
  input_tokens : Nat
  output_tokens : Nat
  episode_id : Option String
deriving DecidableEq

/-- The per-day mutation of one `record_api_usage` call: add the call's
tokens, cost and request to the day record's totals and to the calling
agent's sub-entry. -/
def record_daily_update (agent_name : String) (total_tokens : Nat) (total_cost : ℚ)
    (d : DailyRecord) : DailyRecord :=
  { total_tokens := d.total_tokens + total_tokens,
    total_cost_usd := d.total_cost_usd + total_cost,
    requests := d.requests + 1,
    agents := upsert agent_name { tokens := 0, cost_usd := 0, requests := 0 }
      (fun a => { tokens := a.tokens + total_tokens,
                  cost_usd := a.cost_usd + total_cost,
                  requests := a.requests + 1 }) d.agents }

/-- The per-episode mutation of one `record_api_usage` call: add the call's
tokens and cost to the episode record's totals and to the calling agent's
sub-entry (episode records track no request counts). -/
def record_episode_update (agent_name : String) (total_tokens : Nat) (total_cost : ℚ)
    (e : EpisodeRecord) : EpisodeRecord :=
  { e with total_tokens := e.total_tokens + total_tokens,
           total_cost_usd := e.total_cost_usd + total_cost,
           agents := (upsert agent_name { tokens := 0, cost_usd := 0 }
             (fun a => { tokens := a.tokens + total_tokens,
                         cost_usd := a.cost_usd + total_cost }) e.agents) }

/-- The per-month mutation of one `record_api_usage` call: add the call's
tokens, cost and request to the month record's aggregates (the source keeps
no per-agent breakdown at month scope). -/
def record_monthly_update (total_tokens : Nat) (total_cost : ℚ)
    (m : MonthlyRecord) : MonthlyRecord :=
  { total_tokens := m.total_tokens + total_tokens,
    total_cost_usd := m.total_cost_usd + total_cost,
    requests := m.requests + 1 }

/-- `CostMonitor.record_api_usage`: add the call's tokens, cost and request
to the day record (totals and the agent's sub-entry), to the episode record
when an `episode_id` is given (totals and agent sub-entry, tokens and cost
only), and to the month record (aggregates only), then stamp
`last_updated`. -/
def record_api_usage (c : RecordCall) (st : UsageData) : UsageData :=
  let total_tokens := c.input_tokens + c.output_tokens
  let total_cost : ℚ :=
    (c.input_tokens : ℚ) * input_token_cost + (c.output_tokens : ℚ) * output_token_cost
  let st1 : UsageData :=
    { st with daily_usage :=
        (upsert c.today { total_tokens := 0, total_cost_usd := 0, requests := 0, agents := [] }
          (record_daily_update c.agent_name total_tokens total_cost) st.daily_usage) }
  let st2 : UsageData :=
    match c.episode_id with
    | none => st1
    | some eid =>
        { st1 with episode_usage :=
            (upsert eid { total_tokens := 0, total_cost_usd := 0, agents := [],
                          timestamp := c.timestamp }
              (record_episode_update c.agent_name total_tokens total_cost)
              st1.episode_usage) }
  let st3 : UsageData :=
    { st2 with monthly_totals :=
        (upsert c.month { total_tokens := 0, total_cost_usd := 0, requests := 0 }
          (record_monthly_update total_tokens total_cost) st2.monthly_totals) }
  { st3 with last_updated := c.timestamp }

/-- Sum of the `tokens` entries of a day record's per-agent breakdown. -/
def dailyAgentsTokens (l : List (String × DailyAgentUsage)) : Nat :=
  (l.map (fun p => p.2.tokens)).sum

/-- Sum of the `cost_usd` entries of a day record's per-agent breakdown. -/
def dailyAgentsCost (l : List (String × DailyAgentUsage)) : ℚ :=
  (l.map (fun p => p.2.cost_usd)).sum

/-- Sum of the `requests` entries of a day record's per-agent breakdown. -/
def dailyAgentsRequests (l : List (String × DailyAgentUsage)) : Nat :=
  (l.map (fun p => p.2.requests)).sum

/-- Sum of the `tokens` entries of an episode record's per-agent
breakdown. -/
def episodeAgentsTokens (l : List (String × EpisodeAgentUsage)) : Nat :=
  (l.map (fun p => p.2.tokens)).sum

/-- Sum of the `cost_usd` entries of an episode record's per-agent
breakdown. -/
def episodeAgentsCost (l : List (String × EpisodeAgentUsage)) : ℚ :=
  (l.map (fun p => p.2.cost_usd)).sum

/-- Aggregate/breakdown agreement for a day record: each of the three
aggregates equals the sum over the per-agent breakdown. -/
def DailyInv (d : DailyRecord) : Prop :=
  d.total_tokens = dailyAgentsTokens d.agents ∧
  d.total_cost_usd = dailyAgentsCost d.agents ∧
  d.requests = dailyAgentsRequests d.agents

/-- Aggregate/breakdown agreement for an episode record, over the fields the
source maintains (tokens and cost; episode records store no request
counts). -/
def EpisodeInv (e : EpisodeRecord) : Prop :=
  e.total_tokens = episodeAgentsTokens e.agents ∧
  e.total_cost_usd = episodeAgentsCost e.agents

/-- Aggregate/breakdown agreement over all day and episode records of a
usage document. -/
def UsageInv (st : UsageData) : Prop :=
  (∀ p ∈ st.daily_usage, DailyInv p.2) ∧ (∀ p ∈ st.episode_usage, EpisodeInv p.2)

/-- Modelled from the spec: the spec's `UsageRecord` carries a
`per_agent_breakdown` in every scope, including the month scope, and asserts
"aggregated totals always equal sum of per-agent breakdown entries".  The
source's `monthly_totals` records (`CostMonitor.record_api_usage`,
`src/utils/cost_monitor.py:188-198`) maintain no per-agent map at all, so
the month-scope breakdown available from the code is empty. -/
def monthly_per_agent_breakdown (_m : MonthlyRecord) : List (String × DailyAgentUsage) :=
  []

/-- Modelled from the spec: the claimed aggregate/breakdown agreement for a
month record, read against the (empty) month-scope breakdown the source
keeps. -/
def SpecMonthlyInv (m : MonthlyRecord) : Prop :=
  m.total_tokens = dailyAgentsTokens (monthly_per_agent_breakdown m) ∧
  m.total_cost_usd = dailyAgentsCost (monthly_per_agent_breakdown m) ∧
  m.requests = dailyAgentsRequests (monthly_per_agent_breakdown m)

/-- The publishing configuration read in `PublishingAgent.__init__`
(`src/agents/publishing_agent.py`).  `optimal_times` holds the parsed
`hour:minute` pairs of the `"HH:MM"` strings. -/
structure PublishingConfig where
  posts_per_day : Nat
  optimal_times : List (Nat × Nat)
  avoid_weekends : Bool
  min_thread_spacing_hours : Nat
deriving DecidableEq

/-- Python `date.weekday()` on an absolute day number, with the epoch chosen
so that day 0 is a Monday: Saturday = 5, Sunday = 6. -/
def weekday (day : Nat) : Nat := day % 7

/-- `PublishingAgent.generate_optimal_time_slots`, over absolute minutes.
`now` is the planning instant; `current_date = now.replace(hour=0, ...)` is
`now / 1440` days.  For each of the next 7 days, skip weekend days when
`avoid_weekends`, take the first `posts_per_day` optimal times, build the
day's slot and keep it only when it is strictly more than one hour in the
future, then sort ascending. -/
def generate_optimal_time_slots (cfg : PublishingConfig) (now : Nat) : List Nat :=
  let current_day := now / 1440
  let time_slots := (List.range 7).flatMap (fun day_offset =>
    let day := current_day + day_offset
    if cfg.avoid_weekends && decide (5 ≤ weekday day) then []
    else (cfg.optimal_times.take cfg.posts_per_day).filterMap (fun hm =>
      let slot_time := day * 1440 + (hm.1 * 60 + hm.2)
      if now + 60 < slot_time then some slot_time else none))
  List.insertionSort (fun a b => a ≤ b) time_slots

/-- The loop of `PublishingAgent._select_thread_slots`: walk the candidate
slots, append a slot when it is at least `min_spacing` from every already
selected slot (or none is selected yet), and stop once `thread_count` slots
are selected.  Times and spacing are in minutes. -/
def select_thread_slots_loop (min_spacing : ℤ) (thread_count : Nat) :
    List ℤ → List ℤ → List ℤ
  | [], selected => selected
  | slot :: rest, selected =>
    if selected = [] ∨ ∀ s ∈ selected, min_spacing ≤ |slot - s| then
      let selected' := selected ++ [slot]
      if thread_count ≤ selected'.length then selected'
      else select_thread_slots_loop min_spacing thread_count rest selected'
    else select_thread_slots_loop min_spacing thread_count rest selected

/-- `PublishingAgent._select_thread_slots` (times in minutes;
`min_spacing = timedelta(hours=min_thread_spacing_hours)` becomes
`min_thread_spacing_hours * 60`). -/
def select_thread_slots (min_spacing : ℤ) (time_slots : List ℤ)
    (thread_count : Nat) : List ℤ :=
  if time_slots = [] ∨ thread_count = 0 then []
  else select_thread_slots_loop min_spacing thread_count time_slots []

/-- A content piece as the publishing agent consumes it: its `"type"` field
plus an opaque payload standing for the rest of the dict. -/
structure ContentPiece where
  type : String
  payload : String
deriving DecidableEq

/-- An entry of the publishing schedule built by
`PublishingAgent.create_publishing_schedule` (times in minutes). -/
structure ScheduleItem where
  content : ContentPiece
  publish_time : ℤ
  priority : String
  content_type : String
deriving DecidableEq

/-- `PublishingAgent.create_publishing_schedule`, parameterized by the slot
list (the source obtains it from `generate_optimal_time_slots`; the planning
instant enters only there).  Threads are zipped with the spaced thread
slots, single tweets with the remaining slots, anything else is dropped, and
the result is sorted by publish time. -/
def create_publishing_schedule (cfg : PublishingConfig)
    (content_pieces : List ContentPiece) (time_slots : List ℤ) : List ScheduleItem :=
  let threads := content_pieces.filter (fun p => p.type == "thread")
  let single_tweets := content_pieces.filter (fun p => p.type == "single_tweet")
  let thread_slots :=
    select_thread_slots ((cfg.min_thread_spacing_hours : ℤ) * 60) time_slots threads.length
  let thread_items := (threads.zip thread_slots).map (fun ts =>
    { content := ts.1, publish_time := ts.2, priority := "high",
      content_type := "thread" : ScheduleItem })
  let used_slots := thread_slots
  let remaining_slots := time_slots.filter (fun s => !(used_slots.contains s))
  let tweet_items := (single_tweets.zip remaining_slots).map (fun ts =>
    { content := ts.1, publish_time := ts.2, priority := "medium",
      content_type := "single_tweet" : ScheduleItem })
  List.insertionSort (fun a b => a.publish_time ≤ b.publish_time)
    (thread_items ++ tweet_items)

/-- The result of `PublishingAgent.schedule_content_pieces`, with the fields
the claims are about: the scheduled and failed entries, the status string,
the retry queue after the call, the number of invocations of the external
publish capability (`TypefullyClient.schedule_post`, one per schedule item
via `schedule_single_content`), and the `scheduling_success_rate`
performance metric (`none` when the early empty-input return skips the
metric update). -/
structure ScheduleBatchResult where
  scheduled_content : List ScheduleItem
  failed_content : List ScheduleItem
  status : String
  retry_queue : List ScheduleItem
  publish_calls : Nat
  success_rate : Option ℚ
deriving DecidableEq

/-- One iteration of the scheduling loop of `schedule_content_pieces`,
acting on the accumulated (scheduled, failed, retry queue) state: a
successful publish appends the item to the scheduled list; a failure appends
it to the failed list and to the retry queue. -/
def schedule_step (publishOk : ContentPiece → ℤ → Bool)
    (acc : List ScheduleItem × List ScheduleItem × List ScheduleItem)
    (item : ScheduleItem) : List ScheduleItem × List ScheduleItem × List ScheduleItem :=
  if publishOk item.content item.publish_time then
    (acc.1 ++ [item], acc.2.1, acc.2.2)
  else
    (acc.1, acc.2.1 ++ [item], acc.2.2 ++ [item])

/-- `PublishingAgent.schedule_content_pieces`.  `publishOk` is the external
publish capability: `schedule_single_content` returns `success = true`
exactly when the Typefully call succeeds on the item's content at its
publish time.  On empty input the source returns immediately with empty
results and status `"no_content_to_schedule"`, before any schedule is built
or any publish call is made.  Otherwise each schedule item is published in
order; failures are appended to `failed_content` and to the retry queue. -/
def schedule_content_pieces (cfg : PublishingConfig)
    (publishOk : ContentPiece → ℤ → Bool) (time_slots : List ℤ)
    (retry_queue : List ScheduleItem) (content_pieces : List ContentPiece) :
    ScheduleBatchResult :=
  if content_pieces = [] then
    { scheduled_content := [], failed_content := [],
      status := "no_content_to_schedule", retry_queue := retry_queue,
      publish_calls := 0, success_rate := none }
  else
    let publishing_schedule := create_publishing_schedule cfg content_pieces time_slots
    let r := publishing_schedule.foldl (schedule_step publishOk) ([], [], retry_queue)
    { scheduled_content := r.1, failed_content := r.2.1, status := "completed",
      retry_queue := r.2.2, publish_calls := publishing_schedule.length,
      success_rate := some ((r.1.length : ℚ) / (content_pieces.length : ℚ)) }

/-- The result of `PublishingAgent.retry_failed_publications`: the retry
queue after the call, the `successful_items`, and the contents of the
`still_failed` entries (each such entry carries the item's content plus an
error payload). -/
structure RetryResult where
  queue : List ScheduleItem
  successful_items : List ScheduleItem
  still_failed : List ContentPiece
  status : String
deriving DecidableEq

/-- Python `list.remove`: drop the first occurrence of the value, if any. -/
def eraseFirst : List ScheduleItem → ScheduleItem → List ScheduleItem
  | [], _ => []
  | x :: xs, a => if x = a then xs else x :: eraseFirst xs a

/-- In-place mutation of a queue entry: replace the first occurrence of `a`
by `b`. -/
def replaceFirst : List ScheduleItem → ScheduleItem → ScheduleItem → List ScheduleItem
  | [], _, _ => []
  | x :: xs, a, b => if x = a then b :: xs else x :: replaceFirst xs a b

/-- One iteration of the `retry_failed_publications` loop, acting on the
accumulated (queue, successful, still_failed) state for the next item of the
snapshot.  With no available slot the item is recorded under `still_failed`
and the queue is untouched.  Otherwise the item's `publish_time` is mutated
to the earliest slot (an in-place dict update, hence `replaceFirst` on the
queue), the publish is attempted, and on success the mutated entry is
removed from the queue (`list.remove`). -/
def retry_step (slots : List ℤ) (publishOk : ContentPiece → ℤ → Bool)
    (acc : List ScheduleItem × List ScheduleItem × List ContentPiece)
    (item : ScheduleItem) : List ScheduleItem × List ScheduleItem × List ContentPiece :=
  match slots with
  | [] => (acc.1, acc.2.1, acc.2.2 ++ [item.content])
  | t :: _ =>
    let item' := { item with publish_time := t }
    let queue' := replaceFirst acc.1 item item'
    if publishOk item'.content t then
      (eraseFirst queue' item', acc.2.1 ++ [item'], acc.2.2)
    else
      (queue', acc.2.1, acc.2.2 ++ [item'.content])

/-- `PublishingAgent.retry_failed_publications`, parameterized by the slot
list a `generate_optimal_time_slots` call returns during this invocation
(the source regenerates it per item; within one call the planning instant is
fixed, so every regeneration yields the same list).  An empty queue returns
immediately with status `"no_items_to_retry"`.  Otherwise the loop iterates
over a snapshot (`self.retry_queue[:]`) of the queue. -/
def retry_failed_publications (slots : List ℤ)
    (publishOk : ContentPiece → ℤ → Bool) (retry_queue : List ScheduleItem) :
    RetryResult :=
  if retry_queue = [] then
    { queue := retry_queue, successful_items := [], still_failed := [],
      status := "no_items_to_retry" }
  else
    let r := retry_queue.foldl (retry_step slots publishOk) (retry_queue, [], [])
    { queue := r.1, successful_items := r.2.1, still_failed := r.2.2,
      status := "completed" }

/-! ## Theorems -/

/-- C1 counterexample: `"image_generation"` is not a key of the routing
table, yet `ModelRouter.generate_content` selects the Claude client for it —
not the cheaper OpenRouter tier the claim requires. -/
theorem generate_content_route_unknown_cex :
    task_routing.lookup "image_generation" = none ∧
    generate_content_route "image_generation" = RoutedClient.claude ∧
    generate_content_route "image_generation" ≠ RoutedClient.openrouter := by
  refine ⟨by decide, by decide, by decide⟩

/-- C1 (amended): for every task type absent from the static routing table,
`ModelRouter.generate_content` selects the expensive Claude reasoning tier;
the cheaper OpenRouter tier is used only for explicitly mapped task types. -/
theorem generate_content_route_unknown_default (task_type : String)
    (h : task_routing.lookup task_type = none) :
    generate_content_route task_type = RoutedClient.claude := by
  unfold generate_content_route
  rw [h]
  rfl

/-- Witness for `generate_content_route_unknown_default` at the concrete
unmapped task type `"podcast_summary"`. -/
theorem generate_content_route_unknown_default_witness :
    task_routing.lookup "podcast_summary" = none ∧
    generate_content_route "podcast_summary" = RoutedClient.claude :=
  ⟨by decide, generate_content_route_unknown_default "podcast_summary" (by decide)⟩

/-- C2: evaluation of the retry logic at the failing input.  When the
backend raises a rate-limit error on the first call and again on the retry,
`generate_content` does not terminate with an error after two invocations:
the recursive call re-enters the rate-limit handler, a third backend
invocation is made and the call succeeds — the total invocation count is 3,
exceeding the claimed bound of 2.  In general `n` consecutive rate-limit
signals lead to `n + 1` backend invocations: retries are unbounded while the
backend keeps rate-limiting. -/
theorem generate_content_retry_unbounded :
    (generate_content_outcomes
        [ApiOutcome.rateLimitError "r1", ApiOutcome.rateLimitError "r2",
         ApiOutcome.success "ok"] = (GenOutcome.text "ok", 3) ∧ 2 < 3) ∧
    ∀ n : Nat, (generate_content_outcomes
        (List.replicate n (ApiOutcome.rateLimitError "rl") ++
          [ApiOutcome.success "ok"])).2 = n + 1 := by
  refine ⟨⟨rfl, by omega⟩, ?_⟩
  intro n
  induction n with
  | zero => rfl
  | succ k ih => simpa [List.replicate_succ, generate_content_outcomes] using ih

/-- C4 counterexample: 101 successive `learn_from_success` calls starting
from the default memory leave 101 stored successful patterns — the
101st append is not dropped, so the pattern log is not capped at 100 (the
only cap the agent memory has, on `decisions`), nor at any smaller bound. -/
theorem learn_from_success_unbounded_cex :
    ((List.replicate 101 "p").foldl (fun m p => learn_from_success p m)
        (default_memory : AgentMemory String String)).successful_patterns.length = 101 ∧
    100 < 101 := by
  set_option maxRecDepth 8000 in refine ⟨by decide, by decide⟩

/-- C4 (amended): `learn_from_success` and `learn_from_failure` grow their
pattern logs by exactly one entry per call with no cap — after `n` appends
the logs hold `n` more entries than before — while `log_decision` does keep
its bounded-size behaviour: the `decisions` list never exceeds 100 entries
once it is within that cap. -/
theorem learn_patterns_unbounded_log_decision_capped
    {Pattern Decision : Type} (m : AgentMemory Pattern Decision)
    (ps : List Pattern) (d : Decision) :
    ((ps.foldl (fun mm p => learn_from_success p mm) m).successful_patterns.length
        = m.successful_patterns.length + ps.length) ∧
    ((ps.foldl (fun mm p => learn_from_failure p mm) m).failed_patterns.length
        = m.failed_patterns.length + ps.length) ∧
    (m.decisions.length ≤ 100 → (log_decision d m).decisions.length ≤ 100) := by
  refine ⟨?_, ?_, ?_⟩
  · induction ps generalizing m with
    | nil => simp
    | cons p rest ih =>
        rw [List.foldl_cons, ih]
        simp only [learn_from_success, List.length_append, List.length_cons,
          List.length_nil]
        omega
  · induction ps generalizing m with
    | nil => simp
    | cons p rest ih =>
        rw [List.foldl_cons, ih]
        simp only [learn_from_failure, List.length_append, List.length_cons,
          List.length_nil]
        omega
  · intro h
    unfold log_decision
    by_cases hlen : 100 < (m.decisions ++ [d]).length
    · simp only [hlen, if_true]
      simp only [List.length_drop]
      omega
    · simp only [hlen, if_false]
      simp only [List.length_append] at hlen ⊢
      omega

/-- Witness for `learn_patterns_unbounded_log_decision_capped` at a concrete
memory and decision. -/
theorem learn_patterns_unbounded_log_decision_capped_witness :
    (default_memory : AgentMemory String String).decisions.length ≤ 100 ∧
    (log_decision "d" (default_memory : AgentMemory String String)).decisions.length ≤ 100 :=
  ⟨by decide,
   (learn_patterns_unbounded_log_decision_capped default_memory ["a"] "d").2.2 (by decide)⟩

/-- The daily-limit reason string does mention "daily" (case-insensitively):
its lowercased characters start with `daily`. -/
theorem mentionsDaily_dailyReason (total limit : Nat) :
    mentionsDaily (dailyReasonStr total limit) := by
  refine ⟨[], ((" token limit would be exceeded: " ++
      (toString total ++ (" > " ++ toString limit))).toList.map Char.toLower), ?_⟩
  show ((dailyReasonStr total limit).toList.map Char.toLower) = _
  have h1 : ∀ a b : String, (a ++ b).toList = a.toList ++ b.toList := by
    intro a b
    simp [String.toList, String.data_append]
  simp only [dailyReasonStr, h1, List.map_append, List.nil_append, List.append_assoc]
  have h2 : ("Daily token limit would be exceeded: ".toList.map Char.toLower)
      = "daily".toList ++ (" token limit would be exceeded: ".toList.map Char.toLower) := by
    decide
  rw [h2]
  simp [List.append_assoc]

/-- C3: for every ledger snapshot and pre-flight check, `allowed` equals the
negation of (daily overflow OR episode overflow OR monthly overflow);
`reasons` holds exactly one formatted string per triggered condition in the
fixed order daily, episode, monthly; `reasons` is empty exactly when
`allowed` is true; and whenever the estimated tokens would push daily usage
strictly above the daily limit, the check denies the request with a reason
mentioning "daily". -/
theorem check_pre_request_limits_spec (lim : CostLimits)
    (daily_tokens episode_tokens : Nat) (monthly_cost : ℚ)
    (episode_id : Option String) (estimated_tokens : Nat) :
    (check_pre_request_limits lim daily_tokens episode_tokens monthly_cost
        episode_id estimated_tokens).allowed
      = !(daily_would_exceed lim daily_tokens estimated_tokens ||
          (episode_would_exceed lim episode_tokens estimated_tokens episode_id ||
           monthly_would_exceed lim monthly_cost estimated_tokens)) ∧
    (check_pre_request_limits lim daily_tokens episode_tokens monthly_cost
        episode_id estimated_tokens).reasons
      = ((if daily_would_exceed lim daily_tokens estimated_tokens then
            [dailyReasonStr (daily_tokens + estimated_tokens) lim.daily_token_limit]
          else []) ++
         ((if episode_would_exceed lim episode_tokens estimated_tokens episode_id then
             [episodeReasonStr (episode_tokens + estimated_tokens) lim.episode_token_limit]
           else []) ++
          (if monthly_would_exceed lim monthly_cost estimated_tokens then
             [monthlyReasonStr (monthly_cost + estimated_cost estimated_tokens)
               lim.monthly_budget_usd]
           else []))) ∧
    ((check_pre_request_limits lim daily_tokens episode_tokens monthly_cost
        episode_id estimated_tokens).reasons = [] ↔
     (check_pre_request_limits lim daily_tokens episode_tokens monthly_cost
        episode_id estimated_tokens).allowed = true) ∧
    (lim.daily_token_limit < daily_tokens + estimated_tokens →
      (check_pre_request_limits lim daily_tokens episode_tokens monthly_cost
          episode_id estimated_tokens).allowed = false ∧
      ∃ s ∈ (check_pre_request_limits lim daily_tokens episode_tokens monthly_cost
          episode_id estimated_tokens).reasons, mentionsDaily s) := by
  unfold check_pre_request_limits
  by_cases hd : lim.daily_token_limit < daily_tokens + estimated_tokens <;>
    by_cases he : episode_would_exceed lim episode_tokens estimated_tokens episode_id = true <;>
      by_cases hm : lim.monthly_budget_usd < monthly_cost + estimated_cost estimated_tokens <;>
        simp [daily_would_exceed, monthly_would_exceed, hd, he, hm, mentionsDaily_dailyReason]

/-- Witness for `check_pre_request_limits_spec` at the spec's concrete
scenario: limits (50000, 25000, $100), zero prior usage, no episode id,
60000 estimated tokens. -/
theorem check_pre_request_limits_spec_witness :
    (50000 : Nat) < 0 + 60000 ∧
    ((check_pre_request_limits ⟨50000, 25000, 100⟩ 0 0 0 none 60000).allowed = false ∧
     ∃ s ∈ (check_pre_request_limits ⟨50000, 25000, 100⟩ 0 0 0 none 60000).reasons,
       mentionsDaily s) :=
  ⟨by decide,
   (check_pre_request_limits_spec ⟨50000, 25000, 100⟩ 0 0 0 none 60000).2.2.2 (by decide)⟩

/-- Every entry of an upserted association list satisfies `P` when every
previous entry does, the newly inserted value does, and `f` preserves
`P`. -/
theorem upsert_forall {V : Type} (P : V → Prop) (k : String) (init : V) (f : V → V)
    (l : List (String × V)) (hl : ∀ p ∈ l, P p.2) (hinit : P (f init))
    (hf : ∀ v, P v → P (f v)) : ∀ p ∈ upsert k init f l, P p.2 := by
  induction l with
  | nil =>
      intro p hp
      simp only [upsert, List.mem_singleton] at hp
      rw [hp]
      exact hinit
  | cons q rest ih =>
      intro p hp
      by_cases hq : q.1 = k
      · simp only [upsert, hq, if_true, List.mem_cons] at hp
        rcases hp with h | h
        · rw [h]
          exact hf q.2 (hl q (List.mem_cons_self q rest))
        · exact hl p (List.mem_cons_of_mem q h)
      · simp only [upsert, hq, if_false, List.mem_cons] at hp
        rcases hp with h | h
        · rw [h]
          exact hl q (List.mem_cons_self q rest)
        · exact ih (fun p hp => hl p (List.mem_cons_of_mem q hp)) p h

/-- An upsert whose update adds `c` to the projection `g` (and whose fresh
entry starts from a `g`-zero value) raises the sum of `g` over the list by
exactly `c`. -/
theorem upsert_map_sum {V M : Type} [AddCommMonoid M] (g : V → M) (k : String)
    (init : V) (f : V → V) (c : M) (hf : ∀ v, g (f v) = g v + c) (hinit : g init = 0)
    (l : List (String × V)) :
    ((upsert k init f l).map (fun p => g p.2)).sum = (l.map (fun p => g p.2)).sum + c := by
  induction l with
  | nil => simp [upsert, hf, hinit]
  | cons q rest ih =>
      by_cases hq : q.1 = k
      · simp only [upsert, hq, if_true, List.map_cons, List.sum_cons, hf]
        abel
      · simp only [upsert, hq, if_false, List.map_cons, List.sum_cons, ih]
        abel

/-- The day-record mutation of `record_api_usage` keeps the totals equal to
the per-agent sums. -/
theorem record_daily_update_inv (agent : String) (tt : Nat) (tc : ℚ)
    (d : DailyRecord) (h : DailyInv d) :
    DailyInv (record_daily_update agent tt tc d) := by
  obtain ⟨h1, h2, h3⟩ := h
  have ht := upsert_map_sum (fun a : DailyAgentUsage => a.tokens) agent
    { tokens := 0, cost_usd := 0, requests := 0 }
    (fun a => { tokens := a.tokens + tt, cost_usd := a.cost_usd + tc,
                requests := a.requests + 1 }) tt (fun v => rfl) rfl d.agents
  have hc := upsert_map_sum (fun a : DailyAgentUsage => a.cost_usd) agent
    { tokens := 0, cost_usd := 0, requests := 0 }
    (fun a => { tokens := a.tokens + tt, cost_usd := a.cost_usd + tc,
                requests := a.requests + 1 }) tc (fun v => rfl) rfl d.agents
  have hr := upsert_map_sum (fun a : DailyAgentUsage => a.requests) agent
    { tokens := 0, cost_usd := 0, requests := 0 }
    (fun a => { tokens := a.tokens + tt, cost_usd := a.cost_usd + tc,
                requests := a.requests + 1 }) 1 (fun v => rfl) rfl d.agents
  refine ⟨?_, ?_, ?_⟩
  · simp only [record_daily_update, dailyAgentsTokens] at ht ⊢
    rw [ht, h1, dailyAgentsTokens]
  · simp only [record_daily_update, dailyAgentsCost] at hc ⊢
    rw [hc, h2, dailyAgentsCost]
  · simp only [record_daily_update, dailyAgentsRequests] at hr ⊢
    rw [hr, h3, dailyAgentsRequests]

/-- The episode-record mutation of `record_api_usage` keeps the totals equal
to the per-agent sums (tokens and cost). -/
theorem record_episode_update_inv (agent : String) (tt : Nat) (tc : ℚ)
    (e : EpisodeRecord) (h : EpisodeInv e) :
    EpisodeInv (record_episode_update agent tt tc e) := by
  obtain ⟨h1, h2⟩ := h
  have ht := upsert_map_sum (fun a : EpisodeAgentUsage => a.tokens) agent
    { tokens := 0, cost_usd := 0 }
    (fun a => { tokens := a.tokens + tt, cost_usd := a.cost_usd + tc }) tt
    (fun v => rfl) rfl e.agents
  have hc := upsert_map_sum (fun a : EpisodeAgentUsage => a.cost_usd) agent
    { tokens := 0, cost_usd := 0 }
    (fun a => { tokens := a.tokens + tt, cost_usd := a.cost_usd + tc }) tc
    (fun v => rfl) rfl e.agents
  refine ⟨?_, ?_⟩
  · simp only [record_episode_update, episodeAgentsTokens] at ht ⊢
    rw [ht, h1, episodeAgentsTokens]
  · simp only [record_episode_update, episodeAgentsCost] at hc ⊢
    rw [hc, h2, episodeAgentsCost]

/-- One `record_api_usage` call preserves the aggregate/breakdown agreement
of every day and episode record. -/
theorem record_api_usage_inv_step (c : RecordCall) (st : UsageData)
    (h : UsageInv st) : UsageInv (record_api_usage c st) := by
  obtain ⟨hd, he⟩ := h
  unfold record_api_usage UsageInv
  cases hep : c.episode_id with
  | none =>
      refine ⟨?_, ?_⟩
      · exact upsert_forall DailyInv _ _ _ _ hd
          (record_daily_update_inv _ _ _ _ ⟨rfl, rfl, rfl⟩)
          (fun v hv => record_daily_update_inv _ _ _ _ hv)
      · exact he
  | some eid =>
      refine ⟨?_, ?_⟩
      · exact upsert_forall DailyInv _ _ _ _ hd
          (record_daily_update_inv _ _ _ _ ⟨rfl, rfl, rfl⟩)
          (fun v hv => record_daily_update_inv _ _ _ _ hv)
      · exact upsert_forall EpisodeInv _ _ _ _ he
          (record_episode_update_inv _ _ _ _ ⟨rfl, rfl⟩)
          (fun v hv => record_episode_update_inv _ _ _ _ hv)

/-- C5 (amended): after any sequence of `record_api_usage` calls, in every
day-scope record the aggregated totals (tokens, cost and request count)
equal the sums of the per-agent breakdown, and in every episode-scope record
the aggregated tokens and cost equal the sums of the per-agent breakdown
(episode records keep no request counts).  Month-scope records keep only
aggregates with no per-agent breakdown (`record_api_usage_monthly_no_breakdown_cex`),
so no such invariant applies there. -/
theorem record_api_usage_breakdown_inv (calls : List RecordCall) (st : UsageData)
    (h : UsageInv st) :
    UsageInv (calls.foldl (fun s c => record_api_usage c s) st) := by
  induction calls generalizing st with
  | nil => exact h
  | cons c rest ih => exact ih (record_api_usage c st) (record_api_usage_inv_step c st h)

/-- Witness for `record_api_usage_breakdown_inv` at the freshly loaded empty
usage document and one concrete recording call. -/
theorem record_api_usage_breakdown_inv_witness :
    UsageInv (initial_usage_data "t0") ∧
    UsageInv ([(⟨"2026-10-12", "2026-10", "t1", "research_agent", 100, 50,
        some "ep1"⟩ : RecordCall)].foldl
      (fun s c => record_api_usage c s) (initial_usage_data "t0")) := by
  have h0 : UsageInv (initial_usage_data "t0") := by
    simp [UsageInv, initial_usage_data]
  exact ⟨h0, record_api_usage_breakdown_inv _ _ h0⟩

/-- C5 counterexample: after a single recorded call (agent
`"research_agent"`, 100 input and 50 output tokens, episode `"ep1"`), the
month record holds 150 total tokens and 1 request, but the source maintains
no per-agent breakdown at month scope, so the claimed "aggregated totals
equal the sum of the per-agent breakdown in every scope" fails for the
month-scope record. -/
theorem record_api_usage_monthly_no_breakdown_cex :
    ¬ ∀ p ∈ (record_api_usage (⟨"2026-10-12", "2026-10", "t1", "research_agent",
        100, 50, some "ep1"⟩ : RecordCall) (initial_usage_data "t0")).monthly_totals,
      SpecMonthlyInv p.2 := by
  simp [record_api_usage, initial_usage_data, upsert, SpecMonthlyInv,
    record_monthly_update, monthly_per_agent_breakdown, dailyAgentsTokens,
    dailyAgentsCost, dailyAgentsRequests]

/-- The selection loop of `_select_thread_slots` preserves pairwise spacing
of the selected slots: a slot is only appended when it is at least
`min_spacing` away from every already selected slot. -/
theorem select_thread_slots_loop_pairwise (ms : ℤ) (n : Nat) (slots sel : List ℤ)
    (hsel : sel.Pairwise (fun a b => ms ≤ |a - b|)) :
    (select_thread_slots_loop ms n slots sel).Pairwise (fun a b => ms ≤ |a - b|) := by
  induction slots generalizing sel with
  | nil => simpa [select_thread_slots_loop] using hsel
  | cons slot rest ih =>
      unfold select_thread_slots_loop
      by_cases hc : sel = [] ∨ ∀ s ∈ sel, ms ≤ |slot - s|
      · have hsel' : (sel ++ [slot]).Pairwise (fun a b => ms ≤ |a - b|) := by
          rw [List.pairwise_append]
          refine ⟨hsel, List.pairwise_singleton _ _, ?_⟩
          intro a ha b hb
          simp only [List.mem_singleton] at hb
          subst hb
          rcases hc with h0 | hall
          · subst h0
            simp at ha
          · have h := hall a ha
            rwa [abs_sub_comm] at h
        by_cases hn : n ≤ (sel ++ [slot]).length
        · simp only [hc, if_true, hn]
          exact hsel'
        · simp only [hc, if_true, hn, if_false]
          exact ih _ hsel'
      · simp only [hc, if_false]
        exact ih _ hsel

/-- The slots `_select_thread_slots` returns are pairwise at least
`min_spacing` apart. -/
theorem select_thread_slots_pairwise (ms : ℤ) (time_slots : List ℤ) (n : Nat) :
    (select_thread_slots ms time_slots n).Pairwise (fun a b => ms ≤ |a - b|) := by
  unfold select_thread_slots
  by_cases h : time_slots = [] ∨ n = 0
  · simp [h]
  · simp only [h, if_false]
    exact select_thread_slots_loop_pairwise ms n time_slots [] (List.Pairwise.nil)

/-- The second components of a zip form a sublist of the second input
list. -/
theorem zip_map_snd_sublist {α β : Type} (l₁ : List α) (l₂ : List β) :
    ((l₁.zip l₂).map Prod.snd).Sublist l₂ := by
  induction l₁ generalizing l₂ with
  | nil => simp
  | cons a rest ih =>
      cases l₂ with
      | nil => simp
      | cons b bs => simpa using List.Sublist.cons₂ b (ih bs)

/-- The publish times of the thread entries of a publishing schedule are
pairwise at least `min_thread_spacing_hours` apart: they form a sub-multiset
of the spaced slots `_select_thread_slots` chose. -/
theorem create_publishing_schedule_thread_spacing (cfg : PublishingConfig)
    (pieces : List ContentPiece) (slots : List ℤ) :
    (((create_publishing_schedule cfg pieces slots).filter
        (fun it => it.content_type == "thread")).map (fun it => it.publish_time)).Pairwise
      (fun a b => (cfg.min_thread_spacing_hours : ℤ) * 60 ≤ |a - b|) := by
  have hsymm : Symmetric (fun a b : ℤ => (cfg.min_thread_spacing_hours : ℤ) * 60 ≤ |a - b|) := by
    intro x y h
    rwa [abs_sub_comm] at h
  simp only [create_publishing_schedule]
  set ms : ℤ := (cfg.min_thread_spacing_hours : ℤ) * 60 with hms
  set threads := pieces.filter (fun p => p.type == "thread") with hthreads
  set tslots := select_thread_slots ms slots threads.length with htslots
  set thread_items := (threads.zip tslots).map (fun ts =>
    ({ content := ts.1, publish_time := ts.2, priority := "high",
       content_type := "thread" } : ScheduleItem)) with hitems
  set tweet_items := ((pieces.filter (fun p => p.type == "single_tweet")).zip
      (slots.filter (fun s => !(tslots.contains s)))).map (fun ts =>
    ({ content := ts.1, publish_time := ts.2, priority := "medium",
       content_type := "single_tweet" } : ScheduleItem)) with htweets
  have hperm : List.Perm
      ((List.insertionSort (fun a b : ScheduleItem => a.publish_time ≤ b.publish_time)
        (thread_items ++ tweet_items)).filter (fun it => it.content_type == "thread"))
      ((thread_items ++ tweet_items).filter (fun it => it.content_type == "thread")) :=
    (List.perm_insertionSort _ _).filter _
  have hfilter : (thread_items ++ tweet_items).filter (fun it => it.content_type == "thread")
      = thread_items := by
    rw [List.filter_append]
    have h1 : thread_items.filter (fun it => it.content_type == "thread") = thread_items := by
      rw [List.filter_eq_self]
      intro a ha
      rw [hitems] at ha
      obtain ⟨ts, hts, rfl⟩ := List.mem_map.mp ha
      rfl
    have h2 : tweet_items.filter (fun it => it.content_type == "thread") = [] := by
      rw [List.filter_eq_nil_iff]
      intro a ha
      rw [htweets] at ha
      obtain ⟨ts, hts, rfl⟩ := List.mem_map.mp ha
      simp
    rw [h1, h2, List.append_nil]
  have hmapeq : thread_items.map (fun it => it.publish_time)
      = (threads.zip tslots).map Prod.snd := by
    rw [hitems, List.map_map]
    rfl
  have hpair : ((threads.zip tslots).map Prod.snd).Pairwise
      (fun a b : ℤ => ms ≤ |a - b|) :=
    (select_thread_slots_pairwise ms slots threads.length).sublist
      (zip_map_snd_sublist threads tslots)
  have hpermmap : List.Perm
      (((List.insertionSort (fun a b : ScheduleItem => a.publish_time ≤ b.publish_time)
        (thread_items ++ tweet_items)).filter (fun it => it.content_type == "thread")).map
          (fun it => it.publish_time))
      ((threads.zip tslots).map Prod.snd) := by
    have h1 := hperm.map (fun it : ScheduleItem => it.publish_time)
    rw [hfilter, hmapeq] at h1
    exact h1
  exact (List.Perm.pairwise_iff (fun {x y} h => hsymm h) hpermmap).mpr hpair

/-- C6: for every input slot list and thread count, the slots
`_select_thread_slots` returns are pairwise at least `min_spacing` apart,
and consequently the publish times of the thread entries of every publishing
schedule built by `create_publishing_schedule` are pairwise at least
`min_thread_spacing_hours` apart — no two scheduled threads are ever closer
together than the configured spacing. -/
theorem thread_slots_min_spacing (ms : ℤ) (time_slots : List ℤ) (n : Nat)
    (cfg : PublishingConfig) (pieces : List ContentPiece) (slots : List ℤ) :
    (select_thread_slots ms time_slots n).Pairwise (fun a b => ms ≤ |a - b|) ∧
    (((create_publishing_schedule cfg pieces slots).filter
        (fun it => it.content_type == "thread")).map (fun it => it.publish_time)).Pairwise
      (fun a b => (cfg.min_thread_spacing_hours : ℤ) * 60 ≤ |a - b|) :=
  ⟨select_thread_slots_pairwise ms time_slots n,
   create_publishing_schedule_thread_spacing cfg pieces slots⟩

/-- Every slot returned by `generate_optimal_time_slots` comes from one of
the next 7 days, from one of the first `posts_per_day` optimal times, with
the weekend guard passed and the strictly-more-than-one-hour-ahead check
satisfied. -/
theorem generate_optimal_time_slots_mem (cfg : PublishingConfig) (now t : Nat)
    (ht : t ∈ generate_optimal_time_slots cfg now) :
    ∃ off hm, off < 7 ∧ hm ∈ cfg.optimal_times.take cfg.posts_per_day ∧
      (cfg.avoid_weekends && decide (5 ≤ weekday (now / 1440 + off))) = false ∧
      t = (now / 1440 + off) * 1440 + (hm.1 * 60 + hm.2) ∧ now + 60 < t := by
  simp only [generate_optimal_time_slots] at ht
  rw [(List.perm_insertionSort _ _).mem_iff] at ht
  obtain ⟨off, hoff, ht⟩ := List.mem_flatMap.mp ht
  rw [List.mem_range] at hoff
  by_cases hb : (cfg.avoid_weekends && decide (5 ≤ weekday (now / 1440 + off))) = true
  · rw [if_pos hb] at ht
    simp at ht
  · rw [if_neg hb] at ht
    obtain ⟨hm, hhm, hg⟩ := List.mem_filterMap.mp ht
    by_cases hlt : now + 60 < (now / 1440 + off) * 1440 + (hm.1 * 60 + hm.2)
    · rw [if_pos hlt] at hg
      obtain rfl := Option.some_injective _ hg
      exact ⟨off, hm, hoff, hhm, Bool.not_eq_true _ ▸ hb, rfl, hlt⟩
    · rw [if_neg hlt] at hg
      exact absurd hg (Option.noConfusion)

/-- C7: for every planning instant and configuration (with well-formed
`HH:MM` optimal times, as `datetime.replace` enforces),
`generate_optimal_time_slots` returns only slots strictly more than one hour
in the future of the planning instant, returns no Saturday/Sunday slot when
`avoid_weekends` is set, and the result is sorted ascending. -/
theorem generate_optimal_time_slots_spec (cfg : PublishingConfig) (now : Nat)
    (hvalid : ∀ hm ∈ cfg.optimal_times, hm.1 < 24 ∧ hm.2 < 60) :
    (∀ t ∈ generate_optimal_time_slots cfg now, now + 60 < t) ∧
    (cfg.avoid_weekends = true →
      ∀ t ∈ generate_optimal_time_slots cfg now, weekday (t / 1440) < 5) ∧
    List.Sorted (fun a b : Nat => a ≤ b) (generate_optimal_time_slots cfg now) := by
  refine ⟨?_, ?_, ?_⟩
  · intro t ht
    obtain ⟨off, hm, hoff, hhm, hb, hteq, hlt⟩ := generate_optimal_time_slots_mem cfg now t ht
    exact hlt
  · intro hav t ht
    obtain ⟨off, hm, hoff, hhm, hb, hteq, hlt⟩ := generate_optimal_time_slots_mem cfg now t ht
    have hhm' := hvalid hm (List.mem_of_mem_take hhm)
    have hr : hm.1 * 60 + hm.2 < 1440 := by omega
    have hdiv : t / 1440 = now / 1440 + off := by
      rw [hteq]
      omega
    rw [hdiv]
    rw [hav] at hb
    simp only [Bool.true_and, decide_eq_false_iff_not, not_le] at hb
    exact hb
  · exact List.sorted_insertionSort _ _

/-- Witness for `generate_optimal_time_slots_spec` at the default
configuration (3 posts/day at 09:00, 14:00, 18:00, weekends avoided) and a
concrete Friday-10:00 planning instant. -/
theorem generate_optimal_time_slots_spec_witness :
    (∀ hm ∈ ([(9, 0), (14, 0), (18, 0)] : List (Nat × Nat)), hm.1 < 24 ∧ hm.2 < 60) ∧
    List.Sorted (fun a b : Nat => a ≤ b)
      (generate_optimal_time_slots ⟨3, [(9, 0), (14, 0), (18, 0)], true, 48⟩ 6360) :=
  ⟨by decide,
   (generate_optimal_time_slots_spec ⟨3, [(9, 0), (14, 0), (18, 0)], true, 48⟩ 6360
     (by decide)).2.2⟩

/-- With no available slots, the retry loop records every snapshot item
under `still_failed` and leaves the queue and successes untouched. -/
theorem retry_fold_no_slots (pk : ContentPiece → ℤ → Bool) (items : List ScheduleItem)
    (q succ : List ScheduleItem) (fl : List ContentPiece) :
    items.foldl (retry_step [] pk) (q, succ, fl)
      = (q, succ, fl ++ items.map (fun it => it.content)) := by
  induction items generalizing fl with
  | nil => simp
  | cons it rest ih =>
      simp only [List.foldl_cons, retry_step, List.map_cons]
      rw [ih]
      simp

/-- Replacing one queue entry in place keeps the queue length. -/
theorem replaceFirst_length (l : List ScheduleItem) (a b : ScheduleItem) :
    (replaceFirst l a b).length = l.length := by
  induction l with
  | nil => rfl
  | cons x xs ih =>
      unfold replaceFirst
      by_cases hx : x = a
      · simp [hx]
      · simp [hx, ih]

/-- `list.remove` drops at most one entry. -/
theorem eraseFirst_length_le (l : List ScheduleItem) (a : ScheduleItem) :
    (eraseFirst l a).length ≤ l.length := by
  induction l with
  | nil => simp [eraseFirst]
  | cons x xs ih =>
      unfold eraseFirst
      by_cases hx : x = a
      · simp [hx]
      · simp only [hx, if_false, List.length_cons]
        omega

/-- `list.remove` drops at least `length - 1` entries, i.e. exactly one at
most. -/
theorem eraseFirst_length_ge (l : List ScheduleItem) (a : ScheduleItem) :
    l.length ≤ (eraseFirst l a).length + 1 := by
  induction l with
  | nil => simp [eraseFirst]
  | cons x xs ih =>
      unfold eraseFirst
      by_cases hx : x = a
      · simp [hx]
      · simp only [hx, if_false, List.length_cons]
        omega

/-- Over the retry loop the queue never grows, and it shrinks by at most one
entry per successful publish: the snapshot fold keeps
`initial ≤ queue + successes` alongside `queue ≤ initial`. -/
theorem retry_fold_len (slots : List ℤ) (pk : ContentPiece → ℤ → Bool)
    (items : List ScheduleItem) : ∀ (q succ : List ScheduleItem) (fl : List ContentPiece),
    ((items.foldl (retry_step slots pk) (q, succ, fl)).1.length ≤ q.length) ∧
    (q.length + succ.length ≤ (items.foldl (retry_step slots pk) (q, succ, fl)).1.length
       + (items.foldl (retry_step slots pk) (q, succ, fl)).2.1.length) := by
  induction items with
  | nil => intro q succ fl; simp
  | cons it rest ih =>
      intro q succ fl
      simp only [List.foldl_cons]
      cases slots with
      | nil =>
          simp only [retry_step]
          exact ih q succ (fl ++ [it.content])
      | cons t ts =>
          simp only [retry_step]
          cases hpk : pk ({ it with publish_time := t } : ScheduleItem).content t with
          | true =>
              rw [if_pos rfl]
              have h := ih (eraseFirst (replaceFirst q it { it with publish_time := t })
                { it with publish_time := t })
                (succ ++ [({ it with publish_time := t } : ScheduleItem)]) fl
              have h1 := eraseFirst_length_le (replaceFirst q it { it with publish_time := t })
                ({ it with publish_time := t } : ScheduleItem)
              have h2 := eraseFirst_length_ge (replaceFirst q it { it with publish_time := t })
                ({ it with publish_time := t } : ScheduleItem)
              rw [replaceFirst_length] at h1 h2
              obtain ⟨ha, hb⟩ := h
              refine ⟨le_trans ha h1, ?_⟩
              simp only [List.length_append, List.length_cons, List.length_nil] at hb ⊢
              omega
          | false =>
              rw [if_neg (by simp)]
              exact ih (replaceFirst q it { it with publish_time := t }) succ
                (fl ++ [it.content]) |>.imp
                (fun ha => by rwa [replaceFirst_length] at ha)
                (fun hb => by rwa [replaceFirst_length] at hb)

/-- A `retry_failed_publications` call finding no available slots leaves the
queue unchanged, records no success, and reports every queue entry as still
failed. -/
theorem retry_no_slots (pk : ContentPiece → ℤ → Bool) (queue : List ScheduleItem) :
    (retry_failed_publications [] pk queue).queue = queue ∧
    (retry_failed_publications [] pk queue).successful_items = [] ∧
    (retry_failed_publications [] pk queue).still_failed.length = queue.length := by
  unfold retry_failed_publications
  by_cases hq : queue = []
  · simp [hq]
  · simp only [hq, if_false]
    rw [retry_fold_no_slots]
    simp

/-- C8: with no new slots available, `retry_failed_publications` leaves the
retry queue unchanged and reports every entry still failed, so a second call
returns exactly the same result (`still_failed` count included) and cannot
duplicate queue entries; and for every slot list, the queue never grows and
shrinks by at most one entry per successful publish — entries leave the
queue only through a successful publish. -/
theorem retry_pending_idempotent (pk : ContentPiece → ℤ → Bool) (q : List ScheduleItem) :
    ((retry_failed_publications [] pk q).queue = q) ∧
    ((retry_failed_publications [] pk q).still_failed.length = q.length) ∧
    (retry_failed_publications [] pk ((retry_failed_publications [] pk q).queue)
       = retry_failed_publications [] pk q) ∧
    (q.Nodup → (retry_failed_publications [] pk q).queue.Nodup) ∧
    (∀ slots : List ℤ, (retry_failed_publications slots pk q).queue.length ≤ q.length ∧
       q.length ≤ (retry_failed_publications slots pk q).queue.length
         + (retry_failed_publications slots pk q).successful_items.length) := by
  obtain ⟨hq, hs, hf⟩ := retry_no_slots pk q
  refine ⟨hq, hf, by rw [hq], fun hnd => by rw [hq]; exact hnd, ?_⟩
  intro slots
  unfold retry_failed_publications
  by_cases hqe : q = []
  · simp [hqe]
  · simp only [hqe, if_false]
    have h := retry_fold_len slots pk q q [] []
    simp only [List.length_nil, Nat.add_zero] at h
    exact h

/-- Witness for `retry_pending_idempotent` at a concrete one-item retry
queue with a failing publish capability. -/
theorem retry_pending_idempotent_witness :
    ([(⟨⟨"thread", "a"⟩, 540, "high", "thread"⟩ : ScheduleItem)] : List ScheduleItem).Nodup ∧
    (retry_failed_publications [] (fun _ _ => false)
      [(⟨⟨"thread", "a"⟩, 540, "high", "thread"⟩ : ScheduleItem)]).queue.Nodup :=
  ⟨by decide,
   (retry_pending_idempotent (fun _ _ => false)
     [(⟨⟨"thread", "a"⟩, 540, "high", "thread"⟩ : ScheduleItem)]).2.2.2.1 (by decide)⟩

/-- C9: `schedule_content_pieces` on an empty content list returns the
distinct `"no_content_to_schedule"` status with empty scheduled and failed
lists, leaves the retry queue untouched, never invokes the external publish
capability, and skips the success-rate metric update — a valid non-error
outcome. -/
theorem schedule_batch_empty (cfg : PublishingConfig) (pk : ContentPiece → ℤ → Bool)
    (time_slots : List ℤ) (retry_queue : List ScheduleItem) :
    schedule_content_pieces cfg pk time_slots retry_queue []
      = { scheduled_content := [], failed_content := [],
          status := "no_content_to_schedule", retry_queue := retry_queue,
          publish_calls := 0, success_rate := none } := rfl

/-- Every entry of a publishing schedule carries a content piece drawn from
the input batch whose type is `"thread"` or `"single_tweet"`. -/
theorem create_publishing_schedule_content_mem (cfg : PublishingConfig)
    (pieces : List ContentPiece) (slots : List ℤ) :
    ∀ it ∈ create_publishing_schedule cfg pieces slots,
      it.content ∈ pieces ∧
        (it.content.type = "thread" ∨ it.content.type = "single_tweet") := by
  intro it hit
  simp only [create_publishing_schedule] at hit
  rw [(List.perm_insertionSort _ _).mem_iff] at hit
  rcases List.mem_append.mp hit with h | h
  · obtain ⟨⟨a, b⟩, hts, rfl⟩ := List.mem_map.mp h
    have hz := List.of_mem_zip hts
    have hf := List.mem_filter.mp hz.1
    exact ⟨hf.1, Or.inl (by simpa using hf.2)⟩
  · obtain ⟨⟨a, b⟩, hts, rfl⟩ := List.mem_map.mp h
    have hz := List.of_mem_zip hts
    have hf := List.mem_filter.mp hz.1
    exact ⟨hf.1, Or.inr (by simpa using hf.2)⟩

/-- The scheduling loop only moves schedule items around: everything in the
scheduled, failed and retry-queue outputs comes from the initial
accumulators or the schedule, and every schedule item lands in exactly one
of scheduled/failed. -/
theorem schedule_fold_spec (pk : ContentPiece → ℤ → Bool) (items : List ScheduleItem) :
    ∀ (sch fld rq : List ScheduleItem),
    (∀ it ∈ (items.foldl (schedule_step pk) (sch, fld, rq)).1, it ∈ sch ∨ it ∈ items) ∧
    (∀ it ∈ (items.foldl (schedule_step pk) (sch, fld, rq)).2.1, it ∈ fld ∨ it ∈ items) ∧
    (∀ it ∈ (items.foldl (schedule_step pk) (sch, fld, rq)).2.2, it ∈ rq ∨ it ∈ items) ∧
    ((items.foldl (schedule_step pk) (sch, fld, rq)).1.length
       + (items.foldl (schedule_step pk) (sch, fld, rq)).2.1.length
       = sch.length + fld.length + items.length) := by
  induction items with
  | nil => intro sch fld rq; simp
  | cons it rest ih =>
      intro sch fld rq
      simp only [List.foldl_cons, schedule_step]
      cases hpk : pk it.content it.publish_time with
      | true =>
          rw [if_pos rfl]
          obtain ⟨h1, h2, h3, h4⟩ := ih (sch ++ [it]) fld rq
          refine ⟨?_, ?_, ?_, ?_⟩
          · intro x hx
            rcases h1 x hx with hx' | hx'
            · rcases List.mem_append.mp hx' with hxs | hxs
              · exact Or.inl hxs
              · simp only [List.mem_singleton] at hxs
                exact Or.inr (hxs ▸ List.mem_cons_self it rest)
            · exact Or.inr (List.mem_cons_of_mem it hx')
          · intro x hx
            rcases h2 x hx with hx' | hx'
            · exact Or.inl hx'
            · exact Or.inr (List.mem_cons_of_mem it hx')
          · intro x hx
            rcases h3 x hx with hx' | hx'
            · exact Or.inl hx'
            · exact Or.inr (List.mem_cons_of_mem it hx')
          · simp only [List.length_append, List.length_cons, List.length_nil] at h4 ⊢
            omega
      | false =>
          rw [if_neg (by simp)]
          obtain ⟨h1, h2, h3, h4⟩ := ih sch (fld ++ [it]) (rq ++ [it])
          refine ⟨?_, ?_, ?_, ?_⟩
          · intro x hx
            rcases h1 x hx with hx' | hx'
            · exact Or.inl hx'
            · exact Or.inr (List.mem_cons_of_mem it hx')
          · intro x hx
            rcases h2 x hx with hx' | hx'
            · rcases List.mem_append.mp hx' with hxs | hxs
              · exact Or.inl hxs
              · simp only [List.mem_singleton] at hxs
                exact Or.inr (hxs ▸ List.mem_cons_self it rest)
            · exact Or.inr (List.mem_cons_of_mem it hx')
          · intro x hx
            rcases h3 x hx with hx' | hx'
            · rcases List.mem_append.mp hx' with hxs | hxs
              · exact Or.inl hxs
              · simp only [List.mem_singleton] at hxs
                exact Or.inr (hxs ▸ List.mem_cons_self it rest)
            · exact Or.inr (List.mem_cons_of_mem it hx')
          · simp only [List.length_append, List.length_cons, List.length_nil] at h4 ⊢
            omega

/-- The publishing schedule holds exactly `min(threads, thread slots) +
min(single tweets, remaining slots)` items: threads beyond the spaced slots
and single tweets beyond the remaining slots are dropped. -/
theorem create_publishing_schedule_length (cfg : PublishingConfig)
    (pieces : List ContentPiece) (slots : List ℤ) :
    (create_publishing_schedule cfg pieces slots).length
      = min (pieces.filter (fun q => q.type == "thread")).length
          (select_thread_slots ((cfg.min_thread_spacing_hours : ℤ) * 60) slots
            (pieces.filter (fun q => q.type == "thread")).length).length
        + min (pieces.filter (fun q => q.type == "single_tweet")).length
            (slots.filter (fun s =>
              !((select_thread_slots ((cfg.min_thread_spacing_hours : ℤ) * 60) slots
                (pieces.filter (fun q => q.type == "thread")).length).contains s))).length := by
  simp only [create_publishing_schedule]
  rw [(List.perm_insertionSort _ _).length_eq]
  simp [List.length_zip]

/-- The first components of a zip are exactly the prefix of the first list
that pairs with the second: `threads[:len(thread_slots)]`. -/
theorem zip_map_fst_take {α β : Type} (l₁ : List α) (l₂ : List β) :
    (l₁.zip l₂).map Prod.fst = l₁.take l₂.length := by
  induction l₁ generalizing l₂ with
  | nil => simp
  | cons a rest ih =>
      cases l₂ with
      | nil => simp
      | cons b bs => simp [ih]

/-- Every content piece appearing in a publishing schedule belongs to the
slot-receiving prefix of its class: the first `len(thread_slots)` threads or
the first `len(remaining_slots)` single tweets.  A piece outside both
prefixes — wrong-typed, or of a valid type but with no admissible slot left
for it — enters no schedule entry. -/
theorem create_publishing_schedule_content_take (cfg : PublishingConfig)
    (pieces : List ContentPiece) (slots : List ℤ) :
    ∀ it ∈ create_publishing_schedule cfg pieces slots,
      it.content ∈ (pieces.filter (fun q => q.type == "thread")).take
          (select_thread_slots ((cfg.min_thread_spacing_hours : ℤ) * 60) slots
            (pieces.filter (fun q => q.type == "thread")).length).length ∨
      it.content ∈ (pieces.filter (fun q => q.type == "single_tweet")).take
          (slots.filter (fun s =>
            !((select_thread_slots ((cfg.min_thread_spacing_hours : ℤ) * 60) slots
              (pieces.filter (fun q => q.type == "thread")).length).contains s))).length := by
  intro it hit
  simp only [create_publishing_schedule] at hit
  rw [(List.perm_insertionSort _ _).mem_iff] at hit
  rcases List.mem_append.mp hit with h | h
  · obtain ⟨⟨a, b⟩, hts, rfl⟩ := List.mem_map.mp h
    left
    have ha : a ∈ ((pieces.filter (fun q => q.type == "thread")).zip
        (select_thread_slots ((cfg.min_thread_spacing_hours : ℤ) * 60) slots
          (pieces.filter (fun q => q.type == "thread")).length)).map Prod.fst :=
      List.mem_map.mpr ⟨(a, b), hts, rfl⟩
    rwa [zip_map_fst_take] at ha
  · obtain ⟨⟨a, b⟩, hts, rfl⟩ := List.mem_map.mp h
    right
    have ha : a ∈ ((pieces.filter (fun q => q.type == "single_tweet")).zip
        (slots.filter (fun s =>
          !((select_thread_slots ((cfg.min_thread_spacing_hours : ℤ) * 60) slots
            (pieces.filter (fun q => q.type == "thread")).length).contains s)))).map Prod.fst :=
      List.mem_map.mpr ⟨(a, b), hts, rfl⟩
    rwa [zip_map_fst_take] at ha

/-- C10: a content piece of a non-empty batch that is unschedulable — its
type is neither `"thread"` nor `"single_tweet"`, or no admissible slot
remains for it (no occurrence of it lies in the slot-receiving prefix of its
class: the first `len(thread_slots)` threads, resp. the first
`len(remaining_slots)` single tweets) — is silently omitted: it appears in
neither `scheduled_content` nor `failed_content` and is never added to the
retry queue; every schedule entry lands in exactly one of scheduled/failed
(so omitted pieces reach neither); and the reported success rate still
counts the whole batch in its denominator. -/
theorem schedule_batch_omits_unschedulable (cfg : PublishingConfig)
    (pk : ContentPiece → ℤ → Bool) (time_slots : List ℤ)
    (retry_queue : List ScheduleItem) (content_pieces : List ContentPiece)
    (p : ContentPiece) (hp : p ∈ content_pieces)
    (homit : (p.type ≠ "thread" ∧ p.type ≠ "single_tweet") ∨
      (p ∉ (content_pieces.filter (fun q => q.type == "thread")).take
          (select_thread_slots ((cfg.min_thread_spacing_hours : ℤ) * 60) time_slots
            (content_pieces.filter (fun q => q.type == "thread")).length).length ∧
       p ∉ (content_pieces.filter (fun q => q.type == "single_tweet")).take
          (time_slots.filter (fun s =>
            !((select_thread_slots ((cfg.min_thread_spacing_hours : ℤ) * 60) time_slots
              (content_pieces.filter (fun q => q.type == "thread")).length).contains s))).length)) :
    (∀ it ∈ (schedule_content_pieces cfg pk time_slots retry_queue
        content_pieces).scheduled_content, it.content ≠ p) ∧
    (∀ it ∈ (schedule_content_pieces cfg pk time_slots retry_queue
        content_pieces).failed_content, it.content ≠ p) ∧
    (∀ it ∈ (schedule_content_pieces cfg pk time_slots retry_queue
        content_pieces).retry_queue, it ∈ retry_queue ∨ it.content ≠ p) ∧
    ((schedule_content_pieces cfg pk time_slots retry_queue
        content_pieces).scheduled_content.length
       + (schedule_content_pieces cfg pk time_slots retry_queue
           content_pieces).failed_content.length
       = (create_publishing_schedule cfg content_pieces time_slots).length) ∧
    ((schedule_content_pieces cfg pk time_slots retry_queue content_pieces).success_rate
       = some (((schedule_content_pieces cfg pk time_slots retry_queue
             content_pieces).scheduled_content.length : ℚ)
           / (content_pieces.length : ℚ))) := by
  have hne : content_pieces ≠ [] := List.ne_nil_of_mem hp
  have hnotin : p ∉ (content_pieces.filter (fun q => q.type == "thread")).take
        (select_thread_slots ((cfg.min_thread_spacing_hours : ℤ) * 60) time_slots
          (content_pieces.filter (fun q => q.type == "thread")).length).length ∧
      p ∉ (content_pieces.filter (fun q => q.type == "single_tweet")).take
        (time_slots.filter (fun s =>
          !((select_thread_slots ((cfg.min_thread_spacing_hours : ℤ) * 60) time_slots
            (content_pieces.filter (fun q => q.type == "thread")).length).contains s))).length := by
    rcases homit with ⟨h1, h2⟩ | h
    · constructor
      · intro hmem
        have := List.mem_filter.mp (List.mem_of_mem_take hmem)
        exact h1 (by simpa using this.2)
      · intro hmem
        have := List.mem_filter.mp (List.mem_of_mem_take hmem)
        exact h2 (by simpa using this.2)
    · exact h
  have hcontent : ∀ it ∈ create_publishing_schedule cfg content_pieces time_slots,
      it.content ≠ p := by
    intro it hit heq
    rcases create_publishing_schedule_content_take cfg content_pieces time_slots it hit
      with h | h
    · exact hnotin.1 (heq ▸ h)
    · exact hnotin.2 (heq ▸ h)
  obtain ⟨f1, f2, f3, f4⟩ := schedule_fold_spec pk
    (create_publishing_schedule cfg content_pieces time_slots) [] [] retry_queue
  simp only [schedule_content_pieces, hne, if_false]
  refine ⟨?_, ?_, ?_, ?_, trivial⟩
  · intro it hit
    rcases f1 it hit with h | h
    · simp at h
    · exact hcontent it h
  · intro it hit
    rcases f2 it hit with h | h
    · simp at h
    · exact hcontent it h
  · intro it hit
    rcases f3 it hit with h | h
    · exact Or.inl h
    · exact Or.inr (hcontent it h)
  · simpa using f4

/-- Witness for `schedule_batch_omits_unschedulable` at a concrete batch of
two threads and a slot list whose 48-hour spacing admits only one thread
slot: the second thread is a valid-type piece for which no admissible slot
remains, and it is omitted from the scheduled output. -/
theorem schedule_batch_omits_unschedulable_witness :
    ((⟨"thread", "t2"⟩ : ContentPiece) ∈
      ([⟨"thread", "t1"⟩, ⟨"thread", "t2"⟩] : List ContentPiece)) ∧
    ((⟨"thread", "t2"⟩ : ContentPiece) ∉
      (([⟨"thread", "t1"⟩, ⟨"thread", "t2"⟩] : List ContentPiece).filter
          (fun q => q.type == "thread")).take
        (select_thread_slots ((48 : ℤ) * 60) [540, 840]
          (([⟨"thread", "t1"⟩, ⟨"thread", "t2"⟩] : List ContentPiece).filter
            (fun q => q.type == "thread")).length).length) ∧
    (∀ it ∈ (schedule_content_pieces ⟨3, [(9, 0)], true, 48⟩ (fun _ _ => true) [540, 840] []
        [⟨"thread", "t1"⟩, ⟨"thread", "t2"⟩]).scheduled_content,
      it.content ≠ (⟨"thread", "t2"⟩ : ContentPiece)) :=
  ⟨by decide, by decide,
   (schedule_batch_omits_unschedulable ⟨3, [(9, 0)], true, 48⟩ (fun _ _ => true) [540, 840] []
     [⟨"thread", "t1"⟩, ⟨"thread", "t2"⟩] ⟨"thread", "t2"⟩ (by decide)
     (Or.inr ⟨by decide, by decide⟩)).1⟩

end CMO
